import Mathlib

/-!
Verification development for the mobile application platform layer
(`ABMobileApp` and its helpers).  The JavaScript source is embedded
shallowly: records and values become an inductive `JSVal`, the
promise-chained methods become pure functions over explicit environments
or small step relations, and thrown exceptions / rejected promises become
`Except`.
-/

/-- A JavaScript value, restricted to the shapes that flow through the
embedded methods: numbers (integral), strings, booleans, null, undefined,
arrays and plain objects (ordered field lists, field names unique as in
JS object literals). -/
inductive JSVal : Type where
  | num : Int → JSVal
  | str : String → JSVal
  | boolV : Bool → JSVal
  | nullV : JSVal
  | undefV : JSVal
  | arr : List JSVal → JSVal
  | obj : List (String × JSVal) → JSVal

/-- Lookup in an ordered association list (first binding wins, as in a JS
object where keys are unique). -/
def lookupAssoc {α : Type} : List (String × α) → String → Option α
  | [], _ => none
  | (k', v) :: rest, k => if k' = k then some v else lookupAssoc rest k

/-- JS property assignment `o[k] = v`: replaces the value in place if the
key exists, otherwise appends the new binding. -/
def setAssoc {α : Type} : List (String × α) → String → α → List (String × α)
  | [], k, v => [(k, v)]
  | (k', v') :: rest, k, v =>
      if k' = k then (k, v) :: rest else (k', v') :: setAssoc rest k v

/-- JS property read `o[k]`: `undefined` on a missing key or a non-object
receiver. -/
def getField (v : JSVal) (k : String) : JSVal :=
  match v with
  | .obj l => (lookupAssoc l k).getD JSVal.undefV
  | _ => JSVal.undefV

/-- JS `delete o[k]` (a no-op on non-objects). -/
def delField (v : JSVal) (k : String) : JSVal :=
  match v with
  | .obj l => .obj (l.filter (fun p => !(p.1 == k)))
  | other => other

/-- JS truthiness for the embedded value space. -/
def truthy : JSVal → Bool
  | .num n => n != 0
  | .str s => !(s == "")
  | .boolV b => b
  | .nullV => false
  | .undefV => false
  | .arr _ => true
  | .obj _ => true

/-- `Object.keys` (insertion order; the embedded records use non-integer
field names, for which JS preserves insertion order). -/
def fieldNames : JSVal → List String
  | .obj l => l.map Prod.fst
  | _ => []

mutual

/-- JS string coercion of a value when used as a property key. -/
def keyString : JSVal → String
  | .num n => toString n
  | .str s => s
  | .boolV b => if b then "true" else "false"
  | .nullV => "null"
  | .undefV => "undefined"
  | .arr l => String.intercalate "," (keyStringList l)
  | .obj _ => "[object Object]"

/-- Helper of `keyString` for array elements (JS `Array.prototype.toString`
joins elements with commas). -/
def keyStringList : List JSVal → List String
  | [] => []
  | x :: xs => keyString x :: keyStringList xs

end

/-- Anchored, case-sensitive suffix test, the embedding of the regex test
`f.match(/xyz$/)` used by the field-name guessers. -/
def strEndsWith (s suffix : String) : Bool := suffix.data.isSuffixOf s.data

/-- Digit-list accumulator for integral numeric strings (`none` = not a
number so far). -/
def parseDigits : List Char → Option Nat → Option Nat
  | [], acc => acc
  | c :: cs, acc =>
      if c.isDigit then parseDigits cs (some ((acc.getD 0) * 10 + (c.toNat - 48)))
      else none

/-- Integer parse of a decimal string (optionally signed); `none` for
anything else.  This is JS `ToNumber` restricted to the integral strings
that can occur in the embedded value space. -/
def strToIntOpt (s : String) : Option Int :=
  match s.data with
  | '-' :: rest => (parseDigits rest none).map (fun n => -(n : Int))
  | l => (parseDigits l none).map (fun n => (n : Int))

/-- JS numeric coercion, `none` standing for NaN.  Only integral numeric
strings are representable, which covers every value the embedded code
compares. -/
def toNumber : JSVal → Option Int
  | .num m => some m
  | .str s => if s = "" then some 0 else strToIntOpt s
  | .boolV b => some (if b then 1 else 0)
  | .nullV => some 0
  | .undefV => none
  | .arr l =>
      let s := String.intercalate "," (keyStringList l)
      if s = "" then some 0 else strToIntOpt s
  | .obj _ => none

/-- JS `v > n` for an integer literal `n` (false whenever the coercion is
NaN). -/
def jsGT (v : JSVal) (n : Int) : Bool :=
  match toNumber v with
  | some m => n < m
  | none => false

/-- JS array/string indexing `v[i]`; `undefined` when out of range or on a
non-indexable value. -/
def jsIndex (v : JSVal) (i : Nat) : JSVal :=
  match v with
  | .arr l => (l.get? i).getD .undefV
  | .str s => ((s.toList.get? i).map (fun c => JSVal.str (String.singleton c))).getD .undefV
  | _ => .undefV

/-- JS falsiness of an optional string argument (`null`, `undefined` and
the empty string are falsy). -/
def jsFalsyStr : Option String → Bool
  | none => true
  | some s => s == ""

/-- Primary-key inference of `indexLookupData` (source lines 472-483),
applied when no usable explicit field was supplied:
if `item.id` is truthy the key is `"id"`; otherwise
`var keyFields = fieldNames.find((f) => f.match(/id$/))` yields the first
field NAME ending in `"id"` (a string, not an array), and
`primaryKeyField = keyFields[0]` then takes the first character of that
string, or throws a TypeError when `find` returned `undefined`. -/
def inferPKAuto (item : JSVal) : Except String String :=
  if truthy (getField item "id") then .ok "id"
  else
    match (fieldNames item).find? (fun f => strEndsWith f "id") with
    | some f => .ok (f.take 1)
    | none => .error "TypeError: Cannot read properties of undefined (reading 0)"

/-- Primary-key field selection: the explicit argument when truthy,
otherwise the inference above. -/
def inferPK (item : JSVal) (explicit : Option String) : Except String String :=
  if jsFalsyStr explicit then inferPKAuto item else .ok (explicit.getD "")

/-- The label-field loop of `indexLookupData` (`for (var f in fields)`
with `labelField = f` each iteration and a break on `/label$/`): the first
field ending in `"label"`, else the last field seen, else nothing. -/
def inferLabelAuto (fields : List String) : Option String :=
  match fields.find? (fun f => strEndsWith f "label") with
  | some f => some f
  | none => fields.getLast?

/-- Label-field selection of `indexLookupData` (source lines 485-503):
keep a truthy explicit argument; otherwise run the loop over the first
translation record when `item.translations && item.translations[0]` is
truthy, and over the record itself otherwise. -/
def inferLabel (item : JSVal) (explicit : Option String) : Option String :=
  if jsFalsyStr explicit then
    let tv := getField item "translations"
    if truthy tv && truthy (jsIndex tv 0) then inferLabelAuto (fieldNames (jsIndex tv 0))
    else inferLabelAuto (fieldNames item)
  else explicit

/-- JS property access through a possibly-null field name
(`item[labelField]` with `labelField === null` reads key `"null"`). -/
def propKey (o : Option String) : String := o.getD "null"

/-- The per-record label of the `dataArray.forEach` body (source lines
506-518): when `item.translations` is an array, a fresh object mapping
each translation's `language_code` to its label-field value; otherwise
the record's own label-field value. -/
def recordLabel (lblf : Option String) (item : JSVal) : JSVal :=
  match getField item "translations" with
  | .arr ts =>
      .obj (ts.foldl
        (fun acc t => setAssoc acc (keyString (getField t "language_code")) (getField t (propKey lblf)))
        [])
  | _ => getField item (propKey lblf)

/-- One iteration of the `forEach` accumulation:
`results[item[primaryKeyField]] = label`. -/
def indexInsert (pkf : String) (lblf : Option String)
    (acc : List (String × JSVal)) (it : JSVal) : List (String × JSVal) :=
  setAssoc acc (keyString (getField it pkf)) (recordLabel lblf it)

/-- `ABMobileApp.indexLookupData` (source lines 463-522).  The result
object is an ordered association list keyed by the JS string coercion of
each record's primary-key value; a thrown TypeError is `Except.error`. -/
def indexLookupData (dataArray : List JSVal)
    (primaryKeyField labelField : Option String) : Except String (List (String × JSVal)) :=
  match dataArray.head? with
  | none => .ok []
  | some item =>
    if truthy item then
      match inferPK item primaryKeyField with
      | .error e => .error e
      | .ok pkf =>
          let lblf := inferLabel item labelField
          .ok (dataArray.foldl (indexInsert pkf lblf) [])
    else .ok []

/-! ### `queueLock` (source lines 524-529)

`this._queueLocks` is the per-app registry of queue locks; `new Lock()`
is modelled by drawing a fresh identifier from a counter, so two lock
instances are "identical" exactly when their identifiers agree. -/

/-- The `_queueLocks` registry together with the allocator for fresh
`Lock` instances. -/
structure LockRegistry where
  locks : List (String × Nat)
  nextLockId : Nat

/-- `ABMobileApp.queueLock(key)`: create and cache a lock on first use of
the key, return the cached instance afterwards. -/
def queueLock (s : LockRegistry) (key : String) : Nat × LockRegistry :=
  match lookupAssoc s.locks key with
  | some l => (l, s)
  | none =>
      let l := s.nextLockId
      (l, { locks := setAssoc s.locks key l, nextLockId := l + 1 })

/-! ### `dc` (source lines 188-220)

The method mutates dynamically named members of the app object; the
embedding keeps them in explicit association lists keyed by `fieldName`
(`dataFields` for `this["data"+fieldName]`, `dcRefs` for
`this["dc"+fieldName]`).  The registry lookup `this.application.findDC`
and the local model query `dc.model().local().findAll()` are external
collaborators, passed in as oracles. -/

/-- The slice of `ABMobileApp` state that `dc` reads and writes. -/
structure DCBindState where
  dataFields : List (String × List JSVal)
  dcRefs : List (String × Nat)

/-- `dc.model().local().findAll()` settling for the data collection
handle, run after a successful handle resolution. -/
def dcLoadLocal (localFindAll : Nat → Except String (List JSVal))
    (s : DCBindState) (dcId : Nat) (fieldName : String) :
    Except String Unit × DCBindState :=
  match localFindAll dcId with
  | .ok d => (.ok (), { s with dataFields := setAssoc s.dataFields fieldName d })
  | .error e => (.error e, s)

/-- `ABMobileApp.dc(id, fieldName)`.  Line 190 resets the bound data field
to `[]` before anything else; the handle is then resolved (rejecting with
an `undefined` reason when `findDC` fails, per `Promise.reject()`), and on
success the local snapshot replaces the field. -/
def dc (findDC : String → Option Nat)
    (localFindAll : Nat → Except String (List JSVal))
    (s : DCBindState) (id fieldName : String) :
    Except String Unit × DCBindState :=
  let s1 : DCBindState := { s with dataFields := setAssoc s.dataFields fieldName [] }
  match lookupAssoc s1.dcRefs fieldName with
  | some dcId => dcLoadLocal localFindAll s1 dcId fieldName
  | none =>
      match findDC id with
      | none => (.error "undefined", s1)
      | some dcId =>
          dcLoadLocal localFindAll
            { s1 with dcRefs := setAssoc s1.dcRefs fieldName dcId } dcId fieldName

/-! ### `dcRemote` (source lines 252-322)

The promise executor installs two asynchronous continuations that may
both eventually fire: the fetch chain
`platformInit().then(loadData().catch(reject).then(check dataStatus))`
and the `"data"` event listener.  The embedding is a step function over
the executor state, driven by an environment-chosen event sequence:
`fetchSettled failed initialized webixData` is the fetch chain settling
(`failed` = `loadData` rejected, in which case `reject` ran but the
`.then` continuation still runs; `initialized` = the
`dataStatus == dataStatusFlag.initialized` test; `webixData` = the
`getData()` snapshot), and `dataEvent payload` is one `"data"`
notification. -/

/-- An asynchronous signal delivered to the `dcRemote` executor. -/
inductive DCEvent where
  | fetchSettled (failed : Bool) (initialized : Bool) (webixData : List JSVal)
  | dataEvent (payload : List JSVal)

/-- The webix-id hack (source lines 298-304): a truthy `d.id` greater
than 100000 is deleted from the record. -/
def stripHighId (d : JSVal) : JSVal :=
  if truthy (getField d "id") && jsGT (getField d "id") 100000 then delField d "id" else d

/-- Observable state of one `dcRemote` call: the one-shot guard, counts
of `resolve`/`reject` invocations, the bound data field
`this["data"+fieldName]`, the value the promise was resolved with, and
the number of `fieldName+"Updated"` emissions. -/
structure DCRemoteState where
  hasResolved : Bool
  resolveCount : Nat
  rejectCount : Nat
  dataField : List JSVal
  resolvedValue : Option (List JSVal)
  emitCount : Nat

/-- `resolveIt(data)` (source lines 268-273): honor the first resolution
only. -/
def dcResolveIt (s : DCRemoteState) (data : List JSVal) : DCRemoteState :=
  if s.hasResolved then s
  else { s with hasResolved := true, resolveCount := s.resolveCount + 1,
                resolvedValue := some data }

/-- One asynchronous signal processed by the `dcRemote` executor. -/
def dcRemoteStep (s : DCRemoteState) (e : DCEvent) : DCRemoteState :=
  match e with
  | .fetchSettled failed initialized webixData =>
      let s1 := if failed then { s with rejectCount := s.rejectCount + 1 } else s
      if initialized then
        let stripped := webixData.map stripHighId
        dcResolveIt { s1 with dataField := stripped } stripped
      else s1
  | .dataEvent payload =>
      dcResolveIt { s with dataField := payload, emitCount := s.emitCount + 1 } payload

/-- Executor state at the moment the `dcRemote` promise is created. -/
def dcRemoteInit : DCRemoteState :=
  { hasResolved := false, resolveCount := 0, rejectCount := 0,
    dataField := [], resolvedValue := none, emitCount := 0 }

/-- A complete `dcRemote` call under an environment-chosen signal
schedule. -/
def dcRemoteRun (events : List DCEvent) : DCRemoteState :=
  events.foldl dcRemoteStep dcRemoteInit

/-! ### `init` (source lines 41-110)

The promise chain loads the markers and the persisted status, then joins
the remote bootstrap (when the status check fires) with the
unconditional local bootstrap via `Promise.all`.  External collaborators
(`storage.get`, `storage.set`, the subclass bootstraps) are oracles in an
environment record; `timeoutFires` is the environment's choice of whether
the 25-second timer fires (the timer is cleared only inside the
`Promise.all` handlers, so it remains possible in every branch). -/

/-- Oracle results for one `init` call. -/
structure InitEnv where
  markersResult : Except String (Option (List (String × JSVal)))
  statusResult : Except String (Option String)
  remoteResult : Except String Unit
  statusSetResult : Except String Unit
  localResult : Except String Unit
  timeoutFires : Bool

/-- What one `init` call did: the settled state of the returned promise,
the events emitted on the app, and which bootstraps were invoked. -/
structure InitOutcome where
  result : Except String Unit
  events : List String
  remoteInvoked : Bool
  localInvoked : Bool

/-- `Promise.all` over already-determined operation results, rejecting
with the first rejection (the settle order is abstracted to list
order; the claims do not depend on which error wins). -/
def promiseAll : List (Except String Unit) → Except String Unit
  | [] => .ok ()
  | .error e :: _ => .error e
  | .ok () :: rest => promiseAll rest

/-- `status || "initializing"` of source line 63 (JS `||`, so the empty
string also falls back). -/
def statusOrDefault : Option String → String
  | none => "initializing"
  | some s => if s = "" then "initializing" else s

/-- `ABMobileApp.init(appPage)`. -/
def init (env : InitEnv) : InitOutcome :=
  let timeoutEvents := if env.timeoutFires then ["init.timeout"] else []
  match env.markersResult with
  | .error e =>
      { result := .error e, events := timeoutEvents,
        remoteInvoked := false, localInvoked := false }
  | .ok _markers =>
    match env.statusResult with
    | .error e =>
        { result := .error e, events := timeoutEvents,
          remoteInvoked := false, localInvoked := false }
    | .ok stored =>
        let _statusLine63 := statusOrDefault stored
        let status := "initializing"
        let remoteInvoked := status == "initializing"
        let remoteOp : Except String Unit :=
          match env.remoteResult with
          | .error e => .error e
          | .ok () => env.statusSetResult
        let statusEvents :=
          if remoteInvoked then
            match env.remoteResult with
            | .ok () => ["status"]
            | .error _ => []
          else []
        let ops := (if remoteInvoked then [remoteOp] else []) ++ [env.localResult]
        let joined := promiseAll ops
        let readyEvents := match joined with | .ok () => ["dataReady"] | .error _ => []
        { result := joined
          events := timeoutEvents ++ statusEvents ++ readyEvents
          remoteInvoked := remoteInvoked
          localInvoked := true }

/-! ### Concrete inputs used by the claim theorems -/

/-- Environment of a call whose persisted status is `"ready"` and whose
collaborators all succeed. -/
def c1Env : InitEnv :=
  { markersResult := .ok none, statusResult := .ok (some "ready"),
    remoteResult := .ok (), statusSetResult := .ok (), localResult := .ok (),
    timeoutFires := false }

/-- Environment whose markers read rejects while both bootstraps
succeed. -/
def c6Env : InitEnv :=
  { markersResult := .error "storage get failed", statusResult := .ok none,
    remoteResult := .ok (), statusSetResult := .ok (), localResult := .ok (),
    timeoutFires := false }

/-- Environment with successful storage operations and a failing local
bootstrap. -/
def c6WitnessEnv : InitEnv :=
  { markersResult := .ok none, statusResult := .ok (some "ready"),
    remoteResult := .ok (), statusSetResult := .ok (),
    localResult := .error "local bootstrap failed", timeoutFires := true }

/-- A record whose only id-like field is `userId` (capital `I`). -/
def c2Rec : JSVal := .obj [("userId", .num 7), ("label", .str "A")]

/-- A record with no field named `id` and none ending in `id`. -/
def c3Rec : JSVal := .obj [("name", .str "x"), ("label", .str "A")]

/-- Translation record `{language_code:"en", label:"A"}`. -/
def tEn : JSVal := .obj [("language_code", .str "en"), ("label", .str "A")]

/-- Translation record `{language_code:"es", label:"Ah"}`. -/
def tEs : JSVal := .obj [("language_code", .str "es"), ("label", .str "Ah")]

/-- The multilingual sample record of the spec:
`{id:1, translations:[{language_code:"en",label:"A"},{language_code:"es",label:"Ah"}]}`. -/
def mlRec : JSVal := .obj [("id", .num 1), ("translations", .arr [tEn, tEs])]

/-- A record carrying a webix-range identifier. -/
def highRec : JSVal := .obj [("id", .num 200000)]

/-- Two records sharing the primary-key value `1`. -/
def dupA : JSVal := .obj [("id", .num 1), ("label", .str "A")]

/-- Second record with the shared key and a different label. -/
def dupB : JSVal := .obj [("id", .num 1), ("label", .str "B")]

/-- A binder state that already holds data for field `users` and has no
cached collection handle. -/
def c9State : DCBindState := { dataFields := [("users", [JSVal.num 1])], dcRefs := [] }

/-! ### Association-list lemmas -/

theorem lookupAssoc_setAssoc_self {α : Type} (l : List (String × α)) (k : String) (v : α) :
    lookupAssoc (setAssoc l k v) k = some v := by
  induction l with
  | nil => simp [setAssoc, lookupAssoc]
  | cons p rest ih =>
      obtain ⟨k0, v0⟩ := p
      by_cases h : k0 = k <;> simp [setAssoc, lookupAssoc, h, ih]

theorem lookupAssoc_setAssoc_ne {α : Type} (l : List (String × α)) (k k' : String) (v : α)
    (h : k' ≠ k) : lookupAssoc (setAssoc l k v) k' = lookupAssoc l k' := by
  induction l with
  | nil => simp [setAssoc, lookupAssoc, Ne.symm h]
  | cons p rest ih =>
      obtain ⟨k0, v0⟩ := p
      by_cases h0 : k0 = k
      · subst h0
        simp [setAssoc, lookupAssoc, Ne.symm h]
      · simp [setAssoc, lookupAssoc, h0, ih]

theorem lookupAssoc_filter_out {α : Type} (l : List (String × α)) (k : String) :
    lookupAssoc (l.filter (fun p => !(p.1 == k))) k = none := by
  induction l with
  | nil => rfl
  | cons p rest ih =>
      obtain ⟨k0, v0⟩ := p
      by_cases h : k0 = k
      · simp [List.filter_cons, h, ih]
      · simp [List.filter_cons, h, lookupAssoc, ih]

theorem keys_setAssoc_mem {α : Type} (l : List (String × α)) (k k' : String) (v : α) :
    (k' ∈ (setAssoc l k v).map Prod.fst) ↔ (k' ∈ l.map Prod.fst ∨ k' = k) := by
  induction l with
  | nil => simp [setAssoc]
  | cons p rest ih =>
      obtain ⟨k0, v0⟩ := p
      by_cases h0 : k0 = k
      · subst h0
        simp [setAssoc]
        tauto
      · simp [setAssoc, h0, ih]
        tauto

theorem keys_setAssoc_nodup {α : Type} (l : List (String × α)) (k : String) (v : α)
    (h : (l.map Prod.fst).Nodup) : ((setAssoc l k v).map Prod.fst).Nodup := by
  induction l with
  | nil => simp [setAssoc]
  | cons p rest ih =>
      obtain ⟨k0, v0⟩ := p
      simp only [List.map_cons, List.nodup_cons] at h
      by_cases h0 : k0 = k
      · subst h0
        simpa [setAssoc] using h
      · have hk0 : k0 ∉ ((setAssoc rest k v).map Prod.fst) := by
          rw [keys_setAssoc_mem]
          rintro (hm | hm)
          · exact h.1 hm
          · exact h0 hm
        rw [show setAssoc ((k0, v0) :: rest) k v = (k0, v0) :: setAssoc rest k v from by
          simp [setAssoc, h0]]
        rw [List.map_cons, List.nodup_cons]
        exact ⟨hk0, ih h.2⟩

theorem lookupAssoc_isSome_iff {α : Type} (l : List (String × α)) (k : String) :
    (∃ v, lookupAssoc l k = some v) ↔ k ∈ l.map Prod.fst := by
  induction l with
  | nil => simp [lookupAssoc]
  | cons p rest ih =>
      obtain ⟨k0, v0⟩ := p
      by_cases h0 : k0 = k
      · subst h0
        simp [lookupAssoc]
      · simp [lookupAssoc, h0, ih, Ne.symm h0]

/-! ### Lemmas about the webix-id hack and the `dcRemote` executor -/

theorem getField_delField (d : JSVal) (k : String) :
    getField (delField d k) k = .undefV := by
  cases d <;> simp [delField, getField, lookupAssoc_filter_out]

theorem truthy_false_jsGT (v : JSVal) (h : truthy v = false) :
    jsGT v 100000 = false := by
  cases v with
  | num n =>
      simp [truthy] at h
      simp [jsGT, toNumber, h]
  | str s =>
      simp [truthy] at h
      simp [jsGT, toNumber, h]
  | boolV b =>
      simp [truthy] at h
      simp [jsGT, toNumber, h]
  | nullV => simp [jsGT, toNumber]
  | undefV => simp [jsGT, toNumber]
  | arr l => simp [truthy] at h
  | obj l => simp [truthy] at h

theorem jsGT_stripHighId (d : JSVal) :
    jsGT (getField (stripHighId d) "id") 100000 = false := by
  cases h1 : truthy (getField d "id") with
  | false =>
      have hd : stripHighId d = d := by simp [stripHighId, h1]
      rw [hd]
      exact truthy_false_jsGT _ h1
  | true =>
      cases h2 : jsGT (getField d "id") 100000 with
      | false =>
          have hd : stripHighId d = d := by simp [stripHighId, h1, h2]
          rw [hd]
          exact h2
      | true =>
          have hd : stripHighId d = delField d "id" := by simp [stripHighId, h1, h2]
          rw [hd, getField_delField]
          rfl

theorem dcResolveIt_dataField (t : DCRemoteState) (d : List JSVal) :
    (dcResolveIt t d).dataField = t.dataField := by
  unfold dcResolveIt
  split <;> rfl

/-- The one-shot invariant: the number of honored resolutions matches the
guard flag. -/
def dcRemoteInv (s : DCRemoteState) : Prop :=
  s.resolveCount = (if s.hasResolved then 1 else 0)

theorem dcResolveIt_inv (s : DCRemoteState) (d : List JSVal) (h : dcRemoteInv s) :
    dcRemoteInv (dcResolveIt s d) := by
  unfold dcRemoteInv dcResolveIt at *
  by_cases hr : s.hasResolved <;> simp [hr] at h ⊢ <;> simp [h]

theorem dcRemoteStep_inv (s : DCRemoteState) (e : DCEvent) (h : dcRemoteInv s) :
    dcRemoteInv (dcRemoteStep s e) := by
  cases e with
  | fetchSettled failed initialized wd =>
      unfold dcRemoteStep
      have h1 : dcRemoteInv (if failed then { s with rejectCount := s.rejectCount + 1 } else s) := by
        cases failed <;> simpa [dcRemoteInv] using h
      cases initialized with
      | false => simpa using h1
      | true =>
          simp only [if_pos rfl]
          exact dcResolveIt_inv _ _ (by simpa [dcRemoteInv] using h1)
  | dataEvent p =>
      exact dcResolveIt_inv _ _ (by simpa [dcRemoteInv] using h)

theorem dcRemote_foldl_inv (events : List DCEvent) (s : DCRemoteState)
    (h : dcRemoteInv s) : dcRemoteInv (events.foldl dcRemoteStep s) := by
  induction events generalizing s with
  | nil => exact h
  | cons e es ih => exact ih _ (dcRemoteStep_inv s e h)

/-! ### Lemmas about the `indexLookupData` accumulation -/

theorem foldl_indexInsert_lookup_skip (pkf : String) (lblf : Option String)
    (l : List JSVal) (acc : List (String × JSVal)) (k : String)
    (h : ∀ it ∈ l, keyString (getField it pkf) ≠ k) :
    lookupAssoc (l.foldl (indexInsert pkf lblf) acc) k = lookupAssoc acc k := by
  induction l generalizing acc with
  | nil => rfl
  | cons it rest ih =>
      rw [List.foldl_cons, ih _ (fun x hx => h x (List.mem_cons_of_mem _ hx))]
      exact lookupAssoc_setAssoc_ne _ _ _ _ (Ne.symm (h it (List.mem_cons_self _ _)))

theorem foldl_indexInsert_last (pkf : String) (lblf : Option String)
    (l1 l2 : List JSVal) (r : JSVal) (acc : List (String × JSVal))
    (h : ∀ it ∈ l2, keyString (getField it pkf) ≠ keyString (getField r pkf)) :
    lookupAssoc ((l1 ++ r :: l2).foldl (indexInsert pkf lblf) acc)
      (keyString (getField r pkf)) = some (recordLabel lblf r) := by
  rw [List.foldl_append, List.foldl_cons, foldl_indexInsert_lookup_skip pkf lblf l2 _ _ h]
  exact lookupAssoc_setAssoc_self _ _ _

theorem foldl_indexInsert_keys_mem (pkf : String) (lblf : Option String)
    (l : List JSVal) (acc : List (String × JSVal)) (k : String) :
    (k ∈ ((l.foldl (indexInsert pkf lblf) acc).map Prod.fst)) ↔
      (k ∈ acc.map Prod.fst ∨ ∃ it ∈ l, keyString (getField it pkf) = k) := by
  induction l generalizing acc with
  | nil => simp
  | cons it rest ih =>
      rw [List.foldl_cons, ih]
      rw [show indexInsert pkf lblf acc it
          = setAssoc acc (keyString (getField it pkf)) (recordLabel lblf it) from rfl]
      rw [keys_setAssoc_mem]
      constructor
      · rintro ((hm | hm) | ⟨x, hx, hk⟩)
        · exact Or.inl hm
        · exact Or.inr ⟨it, List.mem_cons_self _ _, hm.symm⟩
        · exact Or.inr ⟨x, List.mem_cons_of_mem _ hx, hk⟩
      · rintro (hm | ⟨x, hx, hk⟩)
        · exact Or.inl (Or.inl hm)
        · rcases List.mem_cons.mp hx with rfl | hx2
          · exact Or.inl (Or.inr hk.symm)
          · exact Or.inr ⟨x, hx2, hk⟩

theorem foldl_indexInsert_keys_nodup (pkf : String) (lblf : Option String)
    (l : List JSVal) (acc : List (String × JSVal))
    (h : (acc.map Prod.fst).Nodup) :
    ((l.foldl (indexInsert pkf lblf) acc).map Prod.fst).Nodup := by
  induction l generalizing acc with
  | nil => exact h
  | cons it rest ih => exact ih _ (keys_setAssoc_nodup _ _ _ h)

theorem indexLookupData_explicit (l : List JSVal) (first : JSVal) (pkf lblf : String)
    (hhead : l.head? = some first) (htr : truthy first = true)
    (hpk : pkf ≠ "") (hlb : lblf ≠ "") :
    indexLookupData l (some pkf) (some lblf) =
      .ok (l.foldl (indexInsert pkf (some lblf)) []) := by
  unfold indexLookupData
  rw [hhead]
  simp [htr, inferPK, inferLabel, jsFalsyStr, hpk, hlb]

/-! ### Claim theorems -/

/-- C1: the claim says a persisted status of `"ready"` suppresses the
remote bootstrap while the local bootstrap always runs.  Evaluating the
embedded `init` at such an environment shows the code invokes BOTH: line
64 (`this.status = "initializing"`) unconditionally overwrites the status
loaded on line 63, so the status check always fires.  The local half of
the claim does hold. -/
theorem init_ready_status_still_invokes_remote :
    (init c1Env).remoteInvoked = true ∧ (init c1Env).localInvoked = true :=
  ⟨rfl, rfl⟩

/-- C2: the claim says `indexLookupData` infers `"userId"` as the key for
records shaped `{userId, label}`.  In the code the regex `/id$/` is
case-sensitive, so `"userId"` (ending in `Id`) does not match, `find`
returns `undefined`, and `keyFields[0]` throws a TypeError; the call
never produces an index at all.  (Had a field matched, `keyFields[0]`
would still yield only its first character, since `find` returns the
field name string and not an array.) -/
theorem indexLookupData_userId_inference_throws :
    indexLookupData [c2Rec] none none =
      .error "TypeError: Cannot read properties of undefined (reading 0)" ∧
    strEndsWith "userId" "id" = false ∧
    inferPKAuto (.obj [("unitid", .num 5)]) = .ok "u" :=
  ⟨rfl, rfl, rfl⟩

/-- C3: the claim (and the spec's soft-failure taxonomy) says that with no
id-like field the indexer returns a degraded/empty index without
throwing.  Evaluating the embedded code at `[{name:"x", label:"A"}]`
shows it instead throws a TypeError: `find` returns `undefined` and
`keyFields[0]` dereferences it. -/
theorem indexLookupData_no_id_candidate_throws :
    indexLookupData [c3Rec] none none =
      .error "TypeError: Cannot read properties of undefined (reading 0)" :=
  rfl

/-- C4 counterexample: a completed `dcRemote` call that resolves through
the `"data"` event path stores its payload unmodified, so a record with
id 200000 (above the 100000 threshold) survives in the bound data field,
contradicting the claim that both resolution paths strip high ids. -/
theorem dcRemote_data_event_keeps_high_id :
    (dcRemoteRun [DCEvent.dataEvent [highRec]]).hasResolved = true ∧
    (dcRemoteRun [DCEvent.dataEvent [highRec]]).dataField = [highRec] ∧
    jsGT (getField highRec "id") 100000 = true :=
  ⟨rfl, rfl, rfl⟩

/-- C4 amended: only the fetch-completion path (the `dataStatus ==
initialized` branch) strips ids above 100000: every record it stores in
the bound data field fails the high-id test. -/
theorem dcRemote_fetch_path_strips_high_ids (s : DCRemoteState) (failed : Bool)
    (webixData : List JSVal) (r : JSVal)
    (hr : r ∈ (dcRemoteStep s (.fetchSettled failed true webixData)).dataField) :
    jsGT (getField r "id") 100000 = false := by
  have hd : (dcRemoteStep s (.fetchSettled failed true webixData)).dataField
      = webixData.map stripHighId := by
    cases failed <;> simp [dcRemoteStep, dcResolveIt_dataField]
  rw [hd] at hr
  obtain ⟨d, _, rfl⟩ := List.mem_map.mp hr
  exact jsGT_stripHighId d

/-- Witness for the amended C4 theorem at the concrete record
`{id: 200000}` delivered through the fetch-completion path. -/
theorem dcRemote_fetch_path_strips_high_ids_witness :
    jsGT (getField (stripHighId highRec) "id") 100000 = false := by
  have hmem : stripHighId highRec ∈
      (dcRemoteStep dcRemoteInit (.fetchSettled false true [highRec])).dataField := by
    have hd : (dcRemoteStep dcRemoteInit (.fetchSettled false true [highRec])).dataField
        = [stripHighId highRec] := rfl
    rw [hd]
    exact List.mem_singleton.mpr rfl
  exact dcRemote_fetch_path_strips_high_ids dcRemoteInit false [highRec] (stripHighId highRec) hmem

/-- C5: over every schedule of fetch-completion and `"data"` signals, the
`hasResolved` guard lets `resolve` run at most once. -/
theorem dcRemote_resolves_at_most_once (events : List DCEvent) :
    (dcRemoteRun events).resolveCount ≤ 1 := by
  have h := dcRemote_foldl_inv events dcRemoteInit (by simp [dcRemoteInv, dcRemoteInit])
  unfold dcRemoteInv at h
  unfold dcRemoteRun
  rw [h]
  split <;> simp

/-- C8: `queueLock` called twice with the same key returns the identical
lock instance both times, and the second call leaves the registry
unchanged (no new lock is created). -/
theorem queueLock_same_key_same_lock (s : LockRegistry) (key : String) :
    (queueLock (queueLock s key).2 key).1 = (queueLock s key).1 ∧
    (queueLock (queueLock s key).2 key).2 = (queueLock s key).2 := by
  cases h : lookupAssoc s.locks key with
  | some l => simp [queueLock, h]
  | none => simp [queueLock, h, lookupAssoc_setAssoc_self]

/-- C9: when no collection handle is cached for the field and the
registry cannot resolve the id, `dc` rejects (with the `undefined` reason
of a bare `Promise.reject()`), yet the bound data field has already been
replaced by `[]`, so previously bound data is discarded despite the
failure. -/
theorem dc_unresolvable_rejects_but_clears_field (findDC : String → Option Nat)
    (localFindAll : Nat → Except String (List JSVal)) (s : DCBindState)
    (id fieldName : String)
    (hcached : lookupAssoc s.dcRefs fieldName = none)
    (hfind : findDC id = none) :
    (dc findDC localFindAll s id fieldName).1 = .error "undefined" ∧
    lookupAssoc (dc findDC localFindAll s id fieldName).2.dataFields fieldName = some [] := by
  unfold dc
  simp [hcached, hfind, lookupAssoc_setAssoc_self]

/-- Witness for C9: a state that held `[1]` under field `users` before
the failing call. -/
theorem dc_unresolvable_rejects_but_clears_field_witness :
    lookupAssoc c9State.dataFields "users" = some [JSVal.num 1] ∧
    ((dc (fun _ => none) (fun _ => .ok []) c9State "bad-id" "users").1 = .error "undefined" ∧
     lookupAssoc (dc (fun _ => none) (fun _ => .ok []) c9State "bad-id" "users").2.dataFields "users"
       = some []) :=
  ⟨rfl, dc_unresolvable_rejects_but_clears_field (fun _ => none) (fun _ => .ok [])
    c9State "bad-id" "users" rfl rfl⟩

/-- C6 counterexample: the claimed "only if" direction fails — an `init`
call whose markers read rejects while BOTH bootstraps succeed still
returns a rejected promise, because the storage reads sit on the same
promise chain. -/
theorem init_rejects_without_bootstrap_rejection :
    (init c6Env).result = .error "storage get failed" ∧
    c6Env.localResult = .ok () ∧ c6Env.remoteResult = .ok () :=
  ⟨rfl, rfl, rfl⟩

/-- C6 amended: provided the two storage reads and the `"ready"` status
persist succeed, `init` rejects exactly when the local or the remote
bootstrap rejects, the data-ready event is emitted exactly on success,
and the timeout flag never affects the settled result (it is purely
observational). -/
theorem init_reject_iff_bootstrap_reject (env : InitEnv)
    (m : Option (List (String × JSVal))) (st : Option String)
    (hm : env.markersResult = .ok m) (hs : env.statusResult = .ok st)
    (hset : env.statusSetResult = .ok ()) :
    ((init env).result = .ok () ↔
      (env.localResult = .ok () ∧ env.remoteResult = .ok ())) ∧
    ("dataReady" ∈ (init env).events ↔ (init env).result = .ok ()) ∧
    (∀ b : Bool, (init { env with timeoutFires := b }).result = (init env).result) := by
  obtain ⟨mr, sr, rr, ser, lr, tf⟩ := env
  simp only at hm hs hset
  subst hm
  subst hs
  subst hset
  cases rr with
  | error e =>
      cases lr <;> cases tf <;>
        refine ⟨?_, ?_, fun b => ?_⟩ <;> simp [init, promiseAll]
  | ok u =>
      cases u
      cases lr <;> cases tf <;>
        refine ⟨?_, ?_, fun b => ?_⟩ <;> simp [init, promiseAll]

/-- Witness for the amended C6 theorem: successful storage operations, a
failing local bootstrap and a firing timeout. -/
theorem init_reject_iff_bootstrap_reject_witness :
    ((init c6WitnessEnv).result = .ok () ↔
      (c6WitnessEnv.localResult = .ok () ∧ c6WitnessEnv.remoteResult = .ok ())) ∧
    ("dataReady" ∈ (init c6WitnessEnv).events ↔ (init c6WitnessEnv).result = .ok ()) ∧
    (∀ b : Bool, (init { c6WitnessEnv with timeoutFires := b }).result
      = (init c6WitnessEnv).result) :=
  init_reject_iff_bootstrap_reject c6WitnessEnv none (some "ready") rfl rfl rfl

/-- C7: on the multilingual sample input, `indexLookupData` returns
`{1:{en:"A", es:"Ah"}}`; and in general (with the field names supplied
explicitly, both non-empty), for a record whose `translations` field is a
non-empty array and whose primary-key value is not reused by any later
record, the index maps that record's key to the object sending each
translation's `language_code` to that translation's label-field value. -/
theorem indexLookupData_multilingual :
    indexLookupData [mlRec] none none =
      .ok [("1", .obj [("en", .str "A"), ("es", .str "Ah")])] ∧
    ∀ (pkf lblf : String) (l1 l2 ts : List JSVal) (r first : JSVal),
      pkf ≠ "" → lblf ≠ "" →
      (l1 ++ r :: l2).head? = some first → truthy first = true →
      getField r "translations" = .arr ts → ts ≠ [] →
      (∀ it ∈ l2, keyString (getField it pkf) ≠ keyString (getField r pkf)) →
      ∃ res, indexLookupData (l1 ++ r :: l2) (some pkf) (some lblf) = .ok res ∧
        lookupAssoc res (keyString (getField r pkf)) =
          some (.obj (ts.foldl (fun acc t =>
            setAssoc acc (keyString (getField t "language_code")) (getField t lblf)) [])) := by
  constructor
  · rfl
  · intro pkf lblf l1 l2 ts r first hpk hlb hhead htr htrans _hne hlast
    refine ⟨_, indexLookupData_explicit _ _ _ _ hhead htr hpk hlb, ?_⟩
    rw [foldl_indexInsert_last pkf (some lblf) l1 l2 r [] hlast]
    simp [recordLabel, htrans, propKey]

/-- Witness for C7 at the sample record, through the explicit-fields form
of the general statement. -/
theorem indexLookupData_multilingual_witness :
    ∃ res, indexLookupData [mlRec] (some "id") (some "label") = .ok res ∧
      lookupAssoc res (keyString (getField mlRec "id")) =
        some (.obj ([tEn, tEs].foldl (fun acc t =>
          setAssoc acc (keyString (getField t "language_code")) (getField t "label")) [])) :=
  indexLookupData_multilingual.2 "id" "label" [] [] [tEn, tEs] mlRec mlRec
    (by decide) (by decide) rfl rfl rfl (by simp) (by simp)

/-- C10: with explicit non-empty field names, when a record is the last
in array order carrying its primary-key value, the index maps that key to
the label derived from that record (later records overwrite earlier
ones), the key list of the index has no duplicates, and a key occurs in
the index exactly when some record produces it — one entry per distinct
primary-key value. -/
theorem indexLookupData_last_write_wins (pkf lblf : String) (l1 l2 : List JSVal)
    (r first : JSVal)
    (hpk : pkf ≠ "") (hlb : lblf ≠ "")
    (hhead : (l1 ++ r :: l2).head? = some first) (htr : truthy first = true)
    (hlast : ∀ it ∈ l2, keyString (getField it pkf) ≠ keyString (getField r pkf)) :
    ∃ res, indexLookupData (l1 ++ r :: l2) (some pkf) (some lblf) = .ok res ∧
      lookupAssoc res (keyString (getField r pkf)) = some (recordLabel (some lblf) r) ∧
      (res.map Prod.fst).Nodup ∧
      ∀ k, (∃ v, lookupAssoc res k = some v) ↔
        ∃ it ∈ l1 ++ r :: l2, keyString (getField it pkf) = k := by
  refine ⟨_, indexLookupData_explicit _ _ _ _ hhead htr hpk hlb, ?_, ?_, ?_⟩
  · exact foldl_indexInsert_last pkf (some lblf) l1 l2 r [] hlast
  · exact foldl_indexInsert_keys_nodup _ _ _ [] (by simp)
  · intro k
    rw [lookupAssoc_isSome_iff, foldl_indexInsert_keys_mem]
    simp

/-- Witness for C10 on two records sharing key `1`: the stored label is
the one derived from the later record. -/
theorem indexLookupData_last_write_wins_witness :
    ∃ res, indexLookupData [dupA, dupB] (some "id") (some "label") = .ok res ∧
      lookupAssoc res (keyString (getField dupB "id")) = some (recordLabel (some "label") dupB) ∧
      (res.map Prod.fst).Nodup ∧
      ∀ k, (∃ v, lookupAssoc res k = some v) ↔
        ∃ it ∈ [dupA, dupB], keyString (getField it "id") = k :=
  indexLookupData_last_write_wins "id" "label" [dupA] [] dupB dupA
    (by decide) (by decide) rfl rfl (by simp)
